import Mathlib

/-!
Verification development for the AST Vue/TypeScript analyzer (`src/index.ts`).

The source file is a single TypeScript module.  Its semantic core is shallowly
embedded here:

* the CSS selector extractor `extractClassesFromStyle`,
* the recursive type printer `getTypeAnnotation` (embedded as
  `getTypeAnnotationOpt` over an explicit Babel-style node type),
* the export/import classifiers `parseExports` / `parseImports`, and
* the props extractor `parseProps`.

The external Babel parser is out of scope (per the specification); the
functions that call it therefore take the parse outcome
(`Except ParseError (List Statement)`) as an input, and the `try`/`catch`
blocks of the source become a `match` on that outcome, pairing the returned
value with the list of emitted diagnostics (`console.error` messages).

JavaScript string primitives used by the source are modelled over `List Char`
so that every definition evaluates by kernel reduction.
-/

namespace Analyzer

/-! ## JavaScript string primitives -/

/-- JS `String.prototype.slice(start, end)` for non-negative indices:
the characters in positions `[start, stop)`, clamped to the string length. -/
def jsSlice (s : String) (start stop : Nat) : String :=
  String.mk ((s.data.take stop).drop start)

/-- The whitespace class of JS `trim` / `\s` (ASCII part plus NBSP). -/
def isJsWhitespace (c : Char) : Bool :=
  c = ' ' || c = '\t' || c = '\n' || c = '\r' || c = '\x0b' || c = '\x0c' || c = '\u00A0'

/-- JS `String.prototype.trim`. -/
def jsTrim (s : String) : String :=
  String.mk (((s.data.dropWhile isJsWhitespace).reverse.dropWhile isJsWhitespace).reverse)

/-- Accumulator pass for `jsWords`. -/
def jsWordsAux : List Char → List Char → List String
  | [], acc => if acc.isEmpty then [] else [String.mk acc.reverse]
  | c :: cs, acc =>
      if isJsWhitespace c then
        if acc.isEmpty then jsWordsAux cs [] else String.mk acc.reverse :: jsWordsAux cs []
      else jsWordsAux cs (c :: acc)

/-- JS `s.split(/\s+/).filter(part => part)`: the maximal runs of
non-whitespace characters, in order. -/
def jsWords (s : String) : List String := jsWordsAux s.data []

/-- Accumulator pass for `jsSplitChar`. -/
def splitCharAux (sep : Char) : List Char → List Char → List String
  | [], acc => [String.mk acc.reverse]
  | c :: cs, acc =>
      if c = sep then String.mk acc.reverse :: splitCharAux sep cs []
      else splitCharAux sep cs (c :: acc)

/-- JS `String.prototype.split` with a one-character separator
(empty pieces are kept; the empty string yields `[""]`). -/
def jsSplitChar (sep : Char) (s : String) : List String := splitCharAux sep s.data []

/-- JS `String.prototype.startsWith`. -/
def jsStartsWith (s pre : String) : Bool := pre.data.isPrefixOf s.data

/-- JS `String.prototype.includes` specialised to a one-character needle. -/
def jsContainsChar (s : String) (c : Char) : Bool := s.data.contains c

/-- JS string truthiness: a string is falsy exactly when it is empty. -/
def jsTruthy (s : String) : Bool := !s.data.isEmpty

/-- JS `array.filter(Boolean)` on an array of strings. -/
def jsFilterBoolean (xs : List String) : List String := xs.filter jsTruthy

/-! ## Selector extraction (`extractClassesFromStyle`) -/

/-- A style block of the single-file component, as handed to
`extractClassesFromStyle` (field `content` of the `StyleBlock` of the source). -/
structure StyleBlock where
  content : String
deriving DecidableEq

/-- A categorized selector; `type` holds one of the literal strings
`"class"`, `"element"`, `"pseudo"`, `"other"` exactly as in the source. -/
structure Selector where
  type : String
  name : String
deriving DecidableEq

/-- ASCII letter test, `[a-zA-Z]`. -/
def isAsciiLetter (c : Char) : Bool :=
  (97 ≤ c.toNat && c.toNat ≤ 122) || (65 ≤ c.toNat && c.toNat ≤ 90)

/-- ASCII letter-or-digit test, `[a-zA-Z0-9]`. -/
def isAsciiAlphanum (c : Char) : Bool :=
  isAsciiLetter c || (48 ≤ c.toNat && c.toNat ≤ 57)

/-- The regex `/^[a-zA-Z][a-zA-Z0-9]*$/` of the source. -/
def isElementIdent (s : String) : Bool :=
  match s.data with
  | [] => false
  | c :: cs => isAsciiLetter c && cs.all isAsciiAlphanum

/-- The classification arm of `extractClassesFromStyle`: the rule chain applied
to one selector token. -/
def classifySelector (selector : String) : Selector :=
  if jsStartsWith selector "." then ⟨"class", selector⟩
  else if jsContainsChar selector ':' then ⟨"pseudo", selector⟩
  else if isElementIdent selector then ⟨"element", selector⟩
  else ⟨"other", selector⟩

/-- The regex match `line.match(/^([^{]+)\s*{/)`: succeeds exactly when the
line has an opening brace preceded by at least one character, and group 1 is
everything before the first opening brace. -/
def matchSelectorPart (line : String) : Option String :=
  let before := line.data.takeWhile (fun c => c ≠ '\x7b')
  if 0 < before.length ∧ before.length < line.data.length then some (String.mk before)
  else none

/-- The tokens one (already trimmed) line contributes: split the selector
group on commas, trim, drop empty selectors, then split each selector on
whitespace. -/
def lineTokens (line : String) : List String :=
  match matchSelectorPart line with
  | none => []
  | some grp =>
      ((jsSplitChar ',' grp).map jsTrim).flatMap
        (fun selector => if jsTruthy selector then jsWords selector else [])

/-- The tokens of one style block: split into trimmed lines, gather line tokens. -/
def blockTokens (block : StyleBlock) : List String :=
  ((jsSplitChar '\n' block.content).map jsTrim).flatMap lineTokens

/-- The token stream of all blocks in input order. -/
def selectorTokens (styleBlocks : List StyleBlock) : List String :=
  styleBlocks.flatMap blockTokens

/-- JS `Set.prototype.add` on an insertion-ordered set represented as a list. -/
def addToSet (acc : List String) (x : String) : List String :=
  if acc.contains x then acc else acc ++ [x]

/-- Embeds `extractClassesFromStyle`: collect every token into the
insertion-ordered set, then classify each element of the set. -/
def extractClassesFromStyle (styleBlocks : List StyleBlock) : List Selector :=
  ((selectorTokens styleBlocks).foldl addToSet []).map classifySelector

/-! ## The type-node universe and the type printer (`getTypeAnnotation`) -/

/-- A literal value carried by the literal node of a `TSLiteralType` (the
case where the source finds a `value` field in `node.literal`). -/
inductive LitValue where
  | num (value : Int)
  | str (value : String)
  | bool (value : Bool)
deriving DecidableEq

/-- JSON escaping of one character, as performed by `JSON.stringify` on the
characters of a string value. -/
def jsonEscapeChar (c : Char) : String :=
  if c = '"' then "\\\""
  else if c = '\\' then "\\\\"
  else if c = '\n' then "\\n"
  else if c = '\t' then "\\t"
  else if c = '\r' then "\\r"
  else String.singleton c

/-- JS `JSON.stringify` restricted to the literal values above. -/
def jsonStringify : LitValue → String
  | .num v => toString v
  | .str v => "\"" ++ String.join (v.data.map jsonEscapeChar) ++ "\""
  | .bool v => if v then "true" else "false"

/-- The literal carried by a `TSLiteralType`: either a node exposing a
`value` field, or one that does not (e.g. a template literal or a unary
expression), in which case the printer falls back to the source slice. -/
inductive TSLiteral where
  | withValue (value : LitValue)
  | noValue
deriving DecidableEq

/-- The Babel node kinds `getTypeAnnotation` dispatches on.  The Babel AST is
unityped (everything is a `Node`), so parameter nodes (`Identifier`) and
object-type members (`TSPropertySignature`) live in the same inductive.
Node kinds the printer does not handle structurally are collapsed into
`otherNode`, which carries the recorded `start`/`end` offsets the fallback
slices at; `identifier` and `tsPropertySignature` — which are also
unhandled when they reach the printer directly — carry their offsets too. -/
inductive Node where
  | tsTypeAnnotationNode (inner : Node)
  | tsNumberKeyword
  | tsStringKeyword
  | tsBooleanKeyword
  | tsVoidKeyword
  | tsNullKeyword
  | tsUndefinedKeyword
  | tsAnyKeyword
  | tsUnknownKeyword
  | tsNeverKeyword
  | tsObjectKeyword
  | tsSymbolKeyword
  | tsBigIntKeyword
  | tsArrayType (elementType : Node)
  | tsFunctionType (parameters : List Node) (retAnn : Option Node)
  | tsLiteralType (literal : TSLiteral) (start stop : Nat)
  | tsTypeReference (typeName : Node) (typeParams : Option (List Node)) (start stop : Nat)
  | tsUnionType (types : List Node)
  | tsIntersectionType (types : List Node)
  | tsTypeLiteral (members : List Node)
  | identifier (name : String) (ann : Option Node) (start stop : Nat)
  | tsPropertySignature (key : Node) (optional : Bool) (ann : Option Node) (start stop : Nat)
  | otherNode (start stop : Nat)

mutual

/-- Embeds the body of `getTypeAnnotation` from the source for a non-null node
(every `case` of its `switch`; the last three equations together are its
`default` arm, slicing the source text at the offsets of the node). -/
def getTypeAnnotationNode : Node → String → String
  | .tsTypeAnnotationNode inner, src => getTypeAnnotationNode inner src
  | .tsNumberKeyword, _ => "number"
  | .tsStringKeyword, _ => "string"
  | .tsBooleanKeyword, _ => "boolean"
  | .tsVoidKeyword, _ => "void"
  | .tsNullKeyword, _ => "null"
  | .tsUndefinedKeyword, _ => "undefined"
  | .tsAnyKeyword, _ => "any"
  | .tsUnknownKeyword, _ => "unknown"
  | .tsNeverKeyword, _ => "never"
  | .tsObjectKeyword, _ => "object"
  | .tsSymbolKeyword, _ => "symbol"
  | .tsBigIntKeyword, _ => "bigint"
  | .tsArrayType elementType, src => getTypeAnnotationNode elementType src ++ "[]"
  | .tsFunctionType parameters retAnn, src =>
      "(" ++ String.intercalate ", " (jsFilterBoolean (printParamList parameters src))
        ++ ") => " ++ printOptAnn retAnn src
  | .tsLiteralType lit s e, src =>
      match lit with
      | .withValue v => jsonStringify v
      | .noValue => jsSlice src s e
  | .tsTypeReference (.identifier typeName _ _ _) none _ _, _ => typeName
  | .tsTypeReference (.identifier typeName _ _ _) (some tps) _ _, src =>
      typeName ++ "<" ++ String.intercalate ", " (getTypeAnnotationList tps src) ++ ">"
  | .tsTypeReference _ _ s e, src => jsSlice src s e
  | .tsUnionType types, src =>
      String.intercalate " | " (getTypeAnnotationList types src)
  | .tsIntersectionType types, src =>
      String.intercalate " & " (getTypeAnnotationList types src)
  | .tsTypeLiteral members, src =>
      "\x7b " ++ String.intercalate "; " (jsFilterBoolean (printMemberList members src)) ++ " \x7d"
  | .identifier _ _ s e, src => jsSlice src s e
  | .tsPropertySignature _ _ _ s e, src => jsSlice src s e
  | .otherNode s e, src => jsSlice src s e

/-- The recursive `map(getTypeAnnotation)` over a list of (non-null) nodes. -/
def getTypeAnnotationList : List Node → String → List String
  | [], _ => []
  | t :: ts, src => getTypeAnnotationNode t src :: getTypeAnnotationList ts src

/-- JS template interpolation of the `string | undefined` result of
`getTypeAnnotation` when the argument may be missing: `undefined` interpolates as the
literal text `"undefined"`. -/
def printOptAnn : Option Node → String → String
  | none, _ => "undefined"
  | some t, src => getTypeAnnotationNode t src

/-- One parameter of a `TSFunctionType`: an `Identifier` with a (truthy)
type annotation prints as `name: type`; everything else becomes the
empty string (removed later by `filter(Boolean)`). -/
def printParam : Node → String → String
  | .identifier name (some ann) _ _, src => name ++ ": " ++ getTypeAnnotationNode ann src
  | _, _ => ""

/-- The parameter strings of a `TSFunctionType`, before `filter(Boolean)`. -/
def printParamList : List Node → String → List String
  | [], _ => []
  | p :: ps, src => printParam p src :: printParamList ps src

/-- One member of a `TSTypeLiteral`: a `TSPropertySignature` with an
`Identifier` key prints as `name?: type` (the missing-annotation case
interpolating as `undefined`); everything else becomes the empty string. -/
def printMember : Node → String → String
  | .tsPropertySignature (.identifier keyName _ _ _) optional ann _ _, src =>
      keyName ++ (if optional then "?" else "") ++ ": " ++ printOptAnn ann src
  | _, _ => ""

/-- The member strings of a `TSTypeLiteral`, before `filter(Boolean)`. -/
def printMemberList : List Node → String → List String
  | [], _ => []
  | m :: ms, src => printMember m src :: printMemberList ms src

end

/-- Embeds `getTypeAnnotation(node, scriptContent)` itself: the source returns
`undefined` for a null/undefined node (`if (!node) return undefined`), and a
string for every actual node. -/
def getTypeAnnotationOpt (node : Option Node) (scriptContent : String) : Option String :=
  node.map (fun n => getTypeAnnotationNode n scriptContent)

/-! ## Program-level AST (the statement shapes the classifiers dispatch on) -/

/-- The expression kinds the source distinguishes (initializers, default
exports, statement expressions).  `callExpression` records the callee, the
argument expressions (never inspected by the source) and the generic type
arguments `typeParameters?.params`. -/
inductive Expr where
  | identifier (name : String)
  | arrowFunctionExpression
  | functionExpression
  | classExpression
  | callExpression (callee : Expr) (arguments : List Expr) (typeParams : Option (List Node))
  | otherExpr

/-- The binding target of a variable declarator: an `Identifier` or any other
binding pattern (destructuring), which the classifiers skip. -/
inductive DeclaratorId where
  | identifier (name : String)
  | otherPattern

/-- One declarator of a `VariableDeclaration` (`id` and optional `init`). -/
structure Declarator where
  id : DeclaratorId
  init : Option Expr

/-- The declaration wrapped by an `ExportNamedDeclaration`. -/
inductive Declaration where
  | functionDeclaration (id : Option String)
  | variableDeclaration (declarations : List Declarator)
  | tsTypeAliasDeclaration (id : Option String)
  | tsInterfaceDeclaration (id : Option String)
  | classDeclaration (id : Option String)
  | otherDeclaration

/-- The declaration of an `ExportDefaultDeclaration`: a function declaration
(whose `id` is null for `export default function () {}`), a class
declaration (likewise nullable), or an expression. -/
inductive DefaultDeclaration where
  | functionDeclaration (id : Option String)
  | classDeclaration (id : Option String)
  | expression (expr : Expr)

/-- A top-level statement of `ast.program.body`, carrying exactly the
structure the three parse functions inspect.  An `importDeclaration` lists
the local names of its specifiers together with the module specifier text. -/
inductive Statement where
  | exportNamedDeclaration (declaration : Option Declaration)
  | exportDefaultDeclaration (declaration : DefaultDeclaration)
  | importDeclaration (specifierLocalNames : List String) (source : String)
  | variableDeclaration (declarations : List Declarator)
  | expressionStatement (expression : Expr)
  | otherStatement

/-- The `ExportAnalysis` record of the source. -/
structure ExportAnalysis where
  functions : List String
  constants : List String
  types : List String
  classes : List String
deriving DecidableEq

/-- The empty-container default value parseExports starts from and returns on
parse failure. -/
def emptyExports : ExportAnalysis := ⟨[], [], [], []⟩

/-- The `ImportItem` record of the source. -/
structure ImportItem where
  importedItem : String
  source : String
deriving DecidableEq

/-- The `PropItem` record of the source.  `parseProps` always supplies
`required`; `default` and `description` are declared but never set. -/
structure PropItem where
  name : String
  type : Option String := none
  required : Bool := true
  default : Option String := none
  description : Option String := none
deriving DecidableEq

/-- The error thrown by the external parser on syntactically invalid input. -/
structure ParseError where
  message : String

/-! ## `parseExports` -/

/-- The per-declarator arm of `parseExports` for named variable exports:
an identifier binding goes to `functions` when its initializer is an arrow
or ordinary function expression, and to `constants` otherwise; pattern
bindings are skipped. -/
def exportsOfDeclarator (acc : ExportAnalysis) (item : Declarator) : ExportAnalysis :=
  match item.id with
  | .identifier name =>
      match item.init with
      | some .arrowFunctionExpression => { acc with functions := acc.functions ++ [name] }
      | some .functionExpression => { acc with functions := acc.functions ++ [name] }
      | _ => { acc with constants := acc.constants ++ [name] }
  | .otherPattern => acc

/-- The body of the `ast.program.body.forEach` callback of `parseExports`. -/
def exportsOfStatement (acc : ExportAnalysis) (node : Statement) : ExportAnalysis :=
  match node with
  | .exportNamedDeclaration (some d) =>
      match d with
      | .functionDeclaration (some name) => { acc with functions := acc.functions ++ [name] }
      | .functionDeclaration none => acc
      | .variableDeclaration ds => ds.foldl exportsOfDeclarator acc
      | .tsTypeAliasDeclaration (some name) => { acc with types := acc.types ++ [name] }
      | .tsTypeAliasDeclaration none => acc
      | .tsInterfaceDeclaration (some name) => { acc with types := acc.types ++ [name] }
      | .tsInterfaceDeclaration none => acc
      | .classDeclaration (some name) => { acc with classes := acc.classes ++ [name] }
      | .classDeclaration none => acc
      | .otherDeclaration => acc
  | .exportNamedDeclaration none => acc
  | .exportDefaultDeclaration d =>
      match d with
      | .functionDeclaration (some name) => { acc with functions := acc.functions ++ [name] }
      | .functionDeclaration none => acc
      | .expression (.identifier name) => { acc with constants := acc.constants ++ [name] }
      | .expression .arrowFunctionExpression => { acc with functions := acc.functions ++ ["default"] }
      | .expression .functionExpression => { acc with functions := acc.functions ++ ["default"] }
      | .classDeclaration (some name) => { acc with classes := acc.classes ++ [name] }
      | .classDeclaration none => acc
      | .expression .classExpression => { acc with classes := acc.classes ++ ["default"] }
      | .expression _ => acc
  | _ => acc

/-- The successful-parse path of `parseExports`: one pass over the body. -/
def parseExportsAst (body : List Statement) : ExportAnalysis :=
  body.foldl exportsOfStatement emptyExports

/-- Embeds `parseExports`, with the external parse outcome as input: on
success the classified exports and no diagnostics; on parse failure the
empty-container default plus the emitted `console.error` diagnostic. -/
def parseExports (parsed : Except ParseError (List Statement)) :
    ExportAnalysis × List String :=
  match parsed with
  | .ok body => (parseExportsAst body, [])
  | .error e => (emptyExports, ["❌ Error parsing exports: " ++ e.message])

/-! ## `parseImports` -/

/-- The body of the `forEach` callback of `parseImports`: each specifier of
an import declaration contributes one `ImportItem`. -/
def importsOfStatement (acc : List ImportItem) (node : Statement) : List ImportItem :=
  match node with
  | .importDeclaration specifierLocalNames source =>
      acc ++ specifierLocalNames.map (fun localName => ⟨localName, source⟩)
  | _ => acc

/-- The successful-parse path of `parseImports`. -/
def parseImportsAst (body : List Statement) : List ImportItem :=
  body.foldl importsOfStatement []

/-- Embeds `parseImports`, with the external parse outcome as input. -/
def parseImports (parsed : Except ParseError (List Statement)) :
    List ImportItem × List String :=
  match parsed with
  | .ok body => (parseImportsAst body, [])
  | .error e => ([], ["❌ Error parsing imports: " ++ e.message])

/-! ## `parseProps` -/

/-- The member extraction shared by both `defineProps` shapes of
`parseProps`: a `TSPropertySignature` with an `Identifier` key yields a
`PropItem` (type printed from the annotation when present); other members
are skipped. -/
def propsOfMember (scriptContent : String) : Node → Option PropItem
  | .tsPropertySignature (.identifier keyName _ _ _) optional ann _ _ =>
      some { name := keyName
             type := getTypeAnnotationOpt ann scriptContent
             required := !optional }
  | _ => none

/-- The type-argument check of `parseProps`: `typeParameters?.params[0]`
must exist and be a `TSTypeLiteral`; its members are then collected. -/
def definePropsTypeArgProps (scriptContent : String) :
    Option (List Node) → List PropItem
  | some (.tsTypeLiteral members :: _) => members.filterMap (propsOfMember scriptContent)
  | _ => []

/-- The callee check of `parseProps` applied to a candidate expression:
a call whose callee is the identifier `defineProps`. -/
def exprProps (scriptContent : String) : Expr → List PropItem
  | .callExpression (.identifier calleeName) _ tp =>
      if calleeName = "defineProps" then definePropsTypeArgProps scriptContent tp else []
  | _ => []

/-- The declarator arm of `parseProps`: the initializer of the declarator must be
a direct `defineProps` call. -/
def declaratorProps (scriptContent : String) (decl : Declarator) : List PropItem :=
  match decl.init with
  | some (.callExpression (.identifier calleeName) _ tp) =>
      if calleeName = "defineProps" then definePropsTypeArgProps scriptContent tp else []
  | _ => []

/-- The per-statement arm of `parseProps`: top-level variable declarations
and bare expression statements are inspected, nothing else. -/
def propsOfStatement (scriptContent : String) : Statement → List PropItem
  | .variableDeclaration ds => ds.flatMap (declaratorProps scriptContent)
  | .expressionStatement e => exprProps scriptContent e
  | _ => []

/-- The successful-parse path of `parseProps`. -/
def parsePropsAst (scriptContent : String) (body : List Statement) : List PropItem :=
  body.flatMap (propsOfStatement scriptContent)

/-- Embeds `parseProps`, with the external parse outcome as input. -/
def parseProps (scriptContent : String) (parsed : Except ParseError (List Statement)) :
    List PropItem × List String :=
  match parsed with
  | .ok body => (parsePropsAst scriptContent body, [])
  | .error e => ([], ["❌ Error parsing props: " ++ e.message])

/-! ## Specification-side definitions (written from the wording of the claims,
to be compared against the embedded source functions) -/

/-- Written from the claim wording: an initializer that "is an arrow or
ordinary function expression". -/
def initIsFunctionExpression : Option Expr → Bool
  | some .arrowFunctionExpression => true
  | some .functionExpression => true
  | _ => false

/-- Written from the claim wording of C3: one `PropItem` per member that is
a named property signature with an identifier key; `name` is the property
key, `required` is `not optional`, `type` is the output of the printer over the
annotation of the member when present and absent otherwise. -/
def specPropItems (scriptContent : String) (members : List Node) : List PropItem :=
  members.filterMap fun member =>
    match member with
    | .tsPropertySignature key optional ann _ _ =>
        match key with
        | .identifier keyName _ _ _ =>
            some { name := keyName
                   type := match ann with
                           | some a => some (getTypeAnnotationNode a scriptContent)
                           | none => none
                   required := !optional }
        | _ => none
    | _ => none

/-- Written from the claim wording of C10: an expression that is a direct
call to `defineProps` (callee is that bare identifier). -/
def directDefinePropsCall : Expr → Bool
  | .callExpression (.identifier calleeName) _ _ => calleeName = "defineProps"
  | _ => false

/-- Written from the claim wording of C10: a statement carrying a
`defineProps` call directly — as the initializer of some variable declarator or
as a bare expression statement. -/
def statementHasDirectDefineProps : Statement → Bool
  | .variableDeclaration ds =>
      ds.any fun d =>
        match d.init with
        | some e => directDefinePropsCall e
        | none => false
  | .expressionStatement e => directDefinePropsCall e
  | _ => false

/-- Written from the claim wording of C6: keep the first occurrence of every
token, in first-encounter order. -/
def firstDedup : List String → List String
  | [] => []
  | x :: xs => x :: firstDedup (xs.filter (fun y => !(y == x)))
termination_by l => l.length
decreasing_by
  simp only [List.length_cons]
  exact Nat.lt_succ_of_le (List.length_filter_le _ _)

/-! ## Helper lemmas -/

theorem addToSet_eq_if (acc : List String) (x : String) :
    addToSet acc x = if x ∈ acc then acc else acc ++ [x] := by
  simp [addToSet]

theorem addToSet_nodup {acc : List String} (x : String) (h : acc.Nodup) :
    (addToSet acc x).Nodup := by
  rw [addToSet_eq_if]
  split
  · exact h
  · rename_i hx
    simp [List.nodup_append, h, hx]

theorem foldl_addToSet_nodup (ts : List String) :
    ∀ acc : List String, acc.Nodup → (ts.foldl addToSet acc).Nodup := by
  induction ts with
  | nil => exact fun _ h => h
  | cons t ts ih => exact fun acc h => ih _ (addToSet_nodup t h)

theorem foldl_addToSet_eq (ts : List String) :
    ∀ acc : List String,
      ts.foldl addToSet acc = acc ++ firstDedup (ts.filter (fun t => !acc.contains t)) := by
  induction ts with
  | nil => intro acc; simp [firstDedup]
  | cons t ts ih =>
      intro acc
      simp only [List.foldl_cons, List.filter_cons]
      by_cases hc : t ∈ acc
      · rw [addToSet_eq_if, if_pos hc, ih acc]
        simp [hc]
      · rw [addToSet_eq_if, if_neg hc, ih (acc ++ [t])]
        have hfilter : ts.filter (fun y => !(acc ++ [t]).contains y)
            = (ts.filter (fun y => !acc.contains y)).filter (fun y => !(y == t)) := by
          rw [List.filter_filter]
          apply List.filter_congr
          intro y _
          by_cases hyt : y = t <;> by_cases hya : y ∈ acc <;>
            simp [hyt, hya]
        rw [hfilter]
        have hpred : (!acc.contains t) = true := by simp [hc]
        rw [hpred, if_pos rfl, firstDedup]
        simp

theorem classifySelector_name (s : String) : (classifySelector s).name = s := by
  unfold classifySelector
  split
  · rfl
  · split
    · rfl
    · split <;> rfl

theorem extractClasses_names (styleBlocks : List StyleBlock) :
    (extractClassesFromStyle styleBlocks).map Selector.name
      = (selectorTokens styleBlocks).foldl addToSet [] := by
  unfold extractClassesFromStyle
  rw [List.map_map]
  have : (Selector.name ∘ classifySelector) = id := by
    funext s
    exact classifySelector_name s
  rw [this, List.map_id]

theorem string_data_append (s t : String) : (s ++ t).data = s.data ++ t.data := rfl

theorem intercalate_single (sep m : String) : String.intercalate sep [m] = m := by
  simp [String.intercalate, String.intercalate.go]

theorem printMember_no_ann (src keyName : String) (optional : Bool)
    (ks ke ms me : Nat) :
    printMember (.tsPropertySignature (.identifier keyName none ks ke) optional none ms me) src
      = keyName ++ (if optional then "?" else "") ++ ": undefined" := by
  simp only [printMember, printOptAnn, String.append_assoc]
  rfl

theorem jsTruthy_append_right (s t : String) (h : t.data ≠ []) :
    jsTruthy (s ++ t) = true := by
  simp only [jsTruthy, string_data_append, List.isEmpty_eq_true, List.append_eq_nil,
    Bool.not_eq_true']
  simp [h]

/-! ## Claim theorems -/

/-- C1: for every primitive/keyword type-node kind the printer returns
exactly the keyword string of that kind, and for every array-of-T node it
returns the recursive print of T with `[]` appended. -/
theorem C1_primitive_and_array_printing : ∀ src : String,
    (getTypeAnnotationOpt (some .tsNumberKeyword) src = some "number") ∧
    (getTypeAnnotationOpt (some .tsStringKeyword) src = some "string") ∧
    (getTypeAnnotationOpt (some .tsBooleanKeyword) src = some "boolean") ∧
    (getTypeAnnotationOpt (some .tsVoidKeyword) src = some "void") ∧
    (getTypeAnnotationOpt (some .tsNullKeyword) src = some "null") ∧
    (getTypeAnnotationOpt (some .tsUndefinedKeyword) src = some "undefined") ∧
    (getTypeAnnotationOpt (some .tsAnyKeyword) src = some "any") ∧
    (getTypeAnnotationOpt (some .tsUnknownKeyword) src = some "unknown") ∧
    (getTypeAnnotationOpt (some .tsNeverKeyword) src = some "never") ∧
    (getTypeAnnotationOpt (some .tsObjectKeyword) src = some "object") ∧
    (getTypeAnnotationOpt (some .tsSymbolKeyword) src = some "symbol") ∧
    (getTypeAnnotationOpt (some .tsBigIntKeyword) src = some "bigint") ∧
    (∀ t : Node, getTypeAnnotationOpt (some (.tsArrayType t)) src
        = some (getTypeAnnotationNode t src ++ "[]")) :=
  fun _ => ⟨rfl, rfl, rfl, rfl, rfl, rfl, rfl, rfl, rfl, rfl, rfl, rfl, fun _ => rfl⟩

/-- C4: the printer is total — a null node yields the undefined value, every
actual node yields a string, and every node kind outside the structurally
handled variants (here: `otherNode`, plus `identifier` and
`tsPropertySignature` reaching the printer directly) is printed by slicing
the original source text at the recorded offsets of the node. -/
theorem C4_default_slice_and_totality : ∀ src : String,
    (∀ s e : Nat, getTypeAnnotationOpt (some (.otherNode s e)) src = some (jsSlice src s e)) ∧
    (∀ (name : String) (ann : Option Node) (s e : Nat),
      getTypeAnnotationOpt (some (.identifier name ann s e)) src = some (jsSlice src s e)) ∧
    (∀ (key : Node) (optional : Bool) (ann : Option Node) (s e : Nat),
      getTypeAnnotationOpt (some (.tsPropertySignature key optional ann s e)) src
        = some (jsSlice src s e)) ∧
    (∀ n : Node, (getTypeAnnotationOpt (some n) src).isSome = true) ∧
    getTypeAnnotationOpt none src = none :=
  fun _ => ⟨fun _ _ => rfl, fun _ _ _ _ => rfl, fun _ _ _ _ _ => rfl, fun _ => rfl, rfl⟩

/-- C9: a named property signature with no type annotation prints with the
literal text `undefined` in its type position, and a function type with no
return annotation prints `undefined` as its return type; in both cases the
printer still returns a string. -/
theorem C9_missing_annotations_print_undefined :
    ∀ (src keyName : String) (optional : Bool) (ks ke ms me : Nat),
      (getTypeAnnotationOpt (some (.tsTypeLiteral
          [.tsPropertySignature (.identifier keyName none ks ke) optional none ms me])) src
        = some ("\x7b " ++ keyName ++ (if optional then "?" else "") ++ ": undefined \x7d")) ∧
      (∀ params : List Node, ∃ paramsStr : String,
        getTypeAnnotationOpt (some (.tsFunctionType params none)) src
          = some ("(" ++ paramsStr ++ ") => undefined")) := by
  intro src keyName optional ks ke ms me
  constructor
  · have hmem := printMember_no_ann src keyName optional ks ke ms me
    have htrue : jsTruthy (keyName ++ (if optional then "?" else "") ++ ": undefined") = true := by
      rw [String.append_assoc]
      exact jsTruthy_append_right _ _ (by cases optional <;> decide)
    have h1 : getTypeAnnotationOpt (some (.tsTypeLiteral
        [.tsPropertySignature (.identifier keyName none ks ke) optional none ms me])) src
        = some ("\x7b " ++ String.intercalate "; " (jsFilterBoolean
            [printMember (.tsPropertySignature (.identifier keyName none ks ke)
              optional none ms me) src]) ++ " \x7d") := rfl
    rw [h1, hmem]
    unfold jsFilterBoolean
    rw [List.filter_cons_of_pos (by exact htrue), List.filter_nil, intercalate_single]
    rw [String.append_assoc, String.append_assoc]
    rfl
  · intro params
    refine ⟨String.intercalate ", " (jsFilterBoolean (printParamList params src)), ?_⟩
    have h1 : getTypeAnnotationOpt (some (.tsFunctionType params none)) src
        = some ((("(" ++ String.intercalate ", " (jsFilterBoolean (printParamList params src)))
            ++ ") => ") ++ "undefined") := rfl
    rw [h1, String.append_assoc]
    rfl

/-- C2 counterexample: an anonymous default-exported function declaration
(`export default function () {}`, a `FunctionDeclaration` with a null `id`)
is appended nowhere — `parseExports` returns the empty analysis, not
`functions = ["default"]` as predicted by the claim ("or the literal name
`default` when the function is anonymous"). -/
theorem C2_counterexample_anonymous_default_function :
    (parseExports (.ok [.exportDefaultDeclaration (.functionDeclaration none)])).fst
      = emptyExports ∧
    ¬ (parseExports (.ok [.exportDefaultDeclaration
        (.functionDeclaration none)])).fst.functions = ["default"] :=
  ⟨rfl, by decide⟩

/-- C2 amended: for a top-level default export, a named function
declaration name goes to `functions`; an anonymous arrow or function
*expression* contributes the literal name `default` to `functions`; a bare
identifier goes to `constants`; a named class declaration name goes to
`classes`; an anonymous class *expression* contributes `default` to
`classes`; an anonymous function or class *declaration* (null `id`)
contributes nothing. -/
theorem C2_amended_default_exports : ∀ (acc : ExportAnalysis) (name : String),
    (exportsOfStatement acc (.exportDefaultDeclaration (.functionDeclaration (some name)))
      = { acc with functions := acc.functions ++ [name] }) ∧
    (exportsOfStatement acc (.exportDefaultDeclaration (.expression (.identifier name)))
      = { acc with constants := acc.constants ++ [name] }) ∧
    (exportsOfStatement acc (.exportDefaultDeclaration (.expression .arrowFunctionExpression))
      = { acc with functions := acc.functions ++ ["default"] }) ∧
    (exportsOfStatement acc (.exportDefaultDeclaration (.expression .functionExpression))
      = { acc with functions := acc.functions ++ ["default"] }) ∧
    (exportsOfStatement acc (.exportDefaultDeclaration (.classDeclaration (some name)))
      = { acc with classes := acc.classes ++ [name] }) ∧
    (exportsOfStatement acc (.exportDefaultDeclaration (.expression .classExpression))
      = { acc with classes := acc.classes ++ ["default"] }) ∧
    (exportsOfStatement acc (.exportDefaultDeclaration (.functionDeclaration none)) = acc) ∧
    (exportsOfStatement acc (.exportDefaultDeclaration (.classDeclaration none)) = acc) :=
  fun _ _ => ⟨rfl, rfl, rfl, rfl, rfl, rfl, rfl, rfl⟩

/-- C7: a named export wrapping a function declaration appends the declared
name to `functions`; a named export wrapping a variable declaration
processes each declarator, sending an identifier binding to `functions`
exactly when its initializer is an arrow or ordinary function expression
and to `constants` otherwise; and the scenario
`export function f(){} export const g = () => {};` yields
`functions = [f, g]` with empty `constants`, `types` and `classes`. -/
theorem C7_named_function_and_variable_exports :
    (∀ (acc : ExportAnalysis) (name : String),
      exportsOfStatement acc (.exportNamedDeclaration (some (.functionDeclaration (some name))))
        = { acc with functions := acc.functions ++ [name] }) ∧
    (∀ (acc : ExportAnalysis) (name : String) (init : Option Expr),
      exportsOfDeclarator acc ⟨.identifier name, init⟩
        = if initIsFunctionExpression init then
            { acc with functions := acc.functions ++ [name] }
          else { acc with constants := acc.constants ++ [name] }) ∧
    (∀ (acc : ExportAnalysis) (ds : List Declarator),
      exportsOfStatement acc (.exportNamedDeclaration (some (.variableDeclaration ds)))
        = ds.foldl exportsOfDeclarator acc) ∧
    parseExports (.ok [.exportNamedDeclaration (some (.functionDeclaration (some "f"))),
        .exportNamedDeclaration (some (.variableDeclaration
          [⟨.identifier "g", some .arrowFunctionExpression⟩]))])
      = (⟨["f", "g"], [], [], []⟩, []) := by
  refine ⟨fun acc name => rfl, fun acc name init => ?_, fun acc ds => rfl, by decide⟩
  rcases init with _ | e
  · rfl
  · cases e <;> rfl

/-- C8: when the external parser rejects the input, `parseExports` and
`parseImports` both catch the failure, emit a diagnostic, and return their
empty-container default values instead of propagating the error. -/
theorem C8_parse_failure_returns_defaults : ∀ e : ParseError,
    parseExports (.error e) = (⟨[], [], [], []⟩, ["❌ Error parsing exports: " ++ e.message]) ∧
    parseImports (.error e) = ([], ["❌ Error parsing imports: " ++ e.message]) :=
  fun _ => ⟨rfl, rfl⟩

/-- One member of the claim-side extraction of C3 (wording of the claim:
name from the property key, `required` = not optional, type = the output of the
printer over the annotation when present, absent otherwise). -/
def specPropItem (scriptContent : String) (member : Node) : Option PropItem :=
  match member with
  | .tsPropertySignature key optional ann _ _ =>
      match key with
      | .identifier keyName _ _ _ =>
          some { name := keyName
                 type := match ann with
                         | some a => some (getTypeAnnotationNode a scriptContent)
                         | none => none
                 required := !optional }
      | _ => none
  | _ => none

theorem propsOfMember_eq_spec (src : String) (m : Node) :
    propsOfMember src m = specPropItem src m := by
  cases m <;> try rfl
  rename_i key optional ann ms me
  cases key <;> cases ann <;> rfl

theorem filterMap_propsOfMember_eq_spec (src : String) (members : List Node) :
    members.filterMap (propsOfMember src) = members.filterMap (specPropItem src) := by
  induction members with
  | nil => rfl
  | cons m ms ih => simp [List.filterMap_cons, propsOfMember_eq_spec, ih]

theorem exprProps_nil_of_not_direct (src : String) (e : Expr)
    (h : directDefinePropsCall e = false) : exprProps src e = [] := by
  cases e <;> try rfl
  rename_i callee args tp
  cases callee <;> try rfl
  rename_i calleeName
  simp only [directDefinePropsCall, decide_eq_false_iff_not] at h
  simp [exprProps, h]

theorem declaratorProps_nil_of_not_direct (src : String) (d : Declarator)
    (h : (match d.init with
          | some e => directDefinePropsCall e
          | none => false) = false) : declaratorProps src d = [] := by
  obtain ⟨declId, init⟩ := d
  cases init with
  | none => rfl
  | some e =>
      simp only at h
      cases e <;> try rfl
      rename_i callee args tp
      cases callee <;> try rfl
      rename_i calleeName
      simp only [directDefinePropsCall, decide_eq_false_iff_not] at h
      simp [declaratorProps, h]

theorem propsOfStatement_nil_of_no_direct (src : String) (s : Statement)
    (h : statementHasDirectDefineProps s = false) : propsOfStatement src s = [] := by
  cases s with
  | variableDeclaration ds =>
      simp only [statementHasDirectDefineProps, List.any_eq_false] at h
      simp only [propsOfStatement]
      induction ds with
      | nil => rfl
      | cons d ds ih =>
          rw [List.flatMap_cons]
          rw [declaratorProps_nil_of_not_direct src d (Bool.eq_false_iff.mpr (h d (by simp))),
            List.nil_append]
          exact ih fun d' hd' => h d' (by simp [hd'])
  | expressionStatement e =>
      exact exprProps_nil_of_not_direct src e h
  | exportNamedDeclaration d => rfl
  | exportDefaultDeclaration d => rfl
  | importDeclaration specs source => rfl
  | otherStatement => rfl

/-- C3: a top-level `defineProps` call carrying an inline object-literal
type argument — whether a bare expression statement or a variable
initializer — contributes exactly one `PropItem` per named property
signature with an identifier key (name from the key, `required` = not
optional, type printed from the annotation when present), and the scenario
`defineProps<\x7b name: string; nickname?: string \x7d>()` yields the two
claimed items. -/
theorem C3_defineProps_inline_object_props :
    (∀ (src : String) (pre post : List Statement) (args : List Expr)
        (members rest : List Node),
      parsePropsAst src (pre ++ .expressionStatement (.callExpression
          (.identifier "defineProps") args (some (.tsTypeLiteral members :: rest))) :: post)
        = parsePropsAst src pre ++ members.filterMap (specPropItem src)
            ++ parsePropsAst src post) ∧
    (∀ (src : String) (pre post : List Statement) (declId : DeclaratorId) (args : List Expr)
        (members rest : List Node),
      parsePropsAst src (pre ++ .variableDeclaration [⟨declId, some (.callExpression
          (.identifier "defineProps") args (some (.tsTypeLiteral members :: rest)))⟩] :: post)
        = parsePropsAst src pre ++ members.filterMap (specPropItem src)
            ++ parsePropsAst src post) ∧
    parseProps "" (.ok [.expressionStatement (.callExpression (.identifier "defineProps") []
        (some [.tsTypeLiteral [.tsPropertySignature (.identifier "name" none 0 0) false
          (some (.tsTypeAnnotationNode .tsStringKeyword)) 0 0,
          .tsPropertySignature (.identifier "nickname" none 0 0) true
          (some (.tsTypeAnnotationNode .tsStringKeyword)) 0 0]]))])
      = ([{ name := "name", type := some "string", required := true },
          { name := "nickname", type := some "string", required := false }], []) := by
  refine ⟨?_, ?_, by decide⟩
  · intro src pre post args members rest
    simp only [parsePropsAst, List.flatMap_append, List.flatMap_cons]
    have h : propsOfStatement src (.expressionStatement (.callExpression
        (.identifier "defineProps") args (some (.tsTypeLiteral members :: rest))))
        = members.filterMap (propsOfMember src) := by
      simp [propsOfStatement, exprProps, definePropsTypeArgProps]
    rw [h, filterMap_propsOfMember_eq_spec]
    simp [List.append_assoc]
  · intro src pre post declId args members rest
    simp only [parsePropsAst, List.flatMap_append, List.flatMap_cons]
    have h : propsOfStatement src (.variableDeclaration [⟨declId, some (.callExpression
        (.identifier "defineProps") args (some (.tsTypeLiteral members :: rest)))⟩])
        = members.filterMap (propsOfMember src) := by
      simp [propsOfStatement, declaratorProps, definePropsTypeArgProps]
    rw [h, filterMap_propsOfMember_eq_spec]
    simp [List.append_assoc]

/-- C10: when no top-level statement carries a `defineProps` call directly
(neither as a declarator initializer nor as a bare expression statement —
e.g. every `defineProps` is wrapped in `withDefaults(...)`), `parseProps`
returns the empty list. -/
theorem C10_nested_defineProps_yields_nothing :
    ∀ (src : String) (body : List Statement),
      (∀ s ∈ body, statementHasDirectDefineProps s = false) →
      parseProps src (.ok body) = ([], []) := by
  intro src body h
  have : parsePropsAst src body = [] := by
    induction body with
    | nil => rfl
    | cons s ss ih =>
        rw [parsePropsAst, List.flatMap_cons,
          propsOfStatement_nil_of_no_direct src s (h s (by simp)), List.nil_append]
        exact ih fun s' hs' => h s' (by simp [hs'])
  simp [parseProps, this]

/-- Example body for the C10 witness: the sole `defineProps` call is nested
inside a `withDefaults(...)` call argument. -/
def withDefaultsBody : List Statement :=
  [.expressionStatement (.callExpression (.identifier "withDefaults")
    [.callExpression (.identifier "defineProps") [] (some [.tsTypeLiteral
      [.tsPropertySignature (.identifier "title" none 0 0) false
        (some (.tsTypeAnnotationNode .tsStringKeyword)) 0 0]])] none)]

/-- C10 witness: the hypothesis holds for the `withDefaults` body, and the
theorem applied there gives the empty result. -/
theorem C10_nested_defineProps_yields_nothing_witness :
    (∀ s ∈ withDefaultsBody, statementHasDirectDefineProps s = false) ∧
    parseProps "" (.ok withDefaultsBody) = ([], []) :=
  ⟨by decide, C10_nested_defineProps_yields_nothing "" withDefaultsBody (by decide)⟩

/-- C5 counterexample: on the single-line input `.a:hover{} div,span{}` the
line-oriented regex extracts only the selector group before the first
opening brace, so the result is exactly one class selector `.a:hover` — not the
three selectors the claim asserts. -/
theorem C5_counterexample_single_line_scenario :
    extractClassesFromStyle [⟨".a:hover\x7b\x7d div,span\x7b\x7d"⟩]
      = [⟨"class", ".a:hover"⟩] ∧
    extractClassesFromStyle [⟨".a:hover\x7b\x7d div,span\x7b\x7d"⟩]
      ≠ [⟨"class", ".a:hover"⟩, ⟨"element", "div"⟩, ⟨"element", "span"⟩] :=
  ⟨by decide, by decide⟩

/-- C5 amended: classification follows the stated rule order (leading dot →
class; otherwise a colon → pseudo; otherwise a bare alphanumeric identifier
starting with a letter → element; otherwise other), and the scenario holds
once its two rules sit on separate lines:
`.a:hover{}\ndiv,span{}` gives exactly class `.a:hover`, element `div`,
element `span`, with no pseudo entry. -/
theorem C5_amended_rule_order :
    (∀ tok : String, jsStartsWith tok "." = true → classifySelector tok = ⟨"class", tok⟩) ∧
    (∀ tok : String, jsStartsWith tok "." = false → jsContainsChar tok ':' = true →
      classifySelector tok = ⟨"pseudo", tok⟩) ∧
    (∀ tok : String, jsStartsWith tok "." = false → jsContainsChar tok ':' = false →
      isElementIdent tok = true → classifySelector tok = ⟨"element", tok⟩) ∧
    (∀ tok : String, jsStartsWith tok "." = false → jsContainsChar tok ':' = false →
      isElementIdent tok = false → classifySelector tok = ⟨"other", tok⟩) ∧
    extractClassesFromStyle [⟨".a:hover\x7b\x7d\ndiv,span\x7b\x7d"⟩]
      = [⟨"class", ".a:hover"⟩, ⟨"element", "div"⟩, ⟨"element", "span"⟩] := by
  refine ⟨?_, ?_, ?_, ?_, by decide⟩
  · intro tok h1
    simp [classifySelector, h1]
  · intro tok h1 h2
    simp [classifySelector, h1, h2]
  · intro tok h1 h2 h3
    simp [classifySelector, h1, h2, h3]
  · intro tok h1 h2 h3
    simp [classifySelector, h1, h2, h3]

/-- C5 witness: the amended rule chain applied at one concrete token per
classification outcome. -/
theorem C5_amended_rule_order_witness :
    classifySelector ".x" = ⟨"class", ".x"⟩ ∧
    classifySelector "a:hover" = ⟨"pseudo", "a:hover"⟩ ∧
    classifySelector "div" = ⟨"element", "div"⟩ ∧
    classifySelector "#id" = ⟨"other", "#id"⟩ :=
  ⟨C5_amended_rule_order.1 ".x" (by decide),
   C5_amended_rule_order.2.1 "a:hover" (by decide) (by decide),
   C5_amended_rule_order.2.2.1 "div" (by decide) (by decide) (by decide),
   C5_amended_rule_order.2.2.2.1 "#id" (by decide) (by decide) (by decide)⟩

/-- C6: the selector list returned by `extractClassesFromStyle` has pairwise
distinct names, and the name sequence is exactly the first-encounter
deduplication (by exact token text) of the token stream across blocks in
input order. -/
theorem C6_selector_dedup_and_order : ∀ styleBlocks : List StyleBlock,
    ((extractClassesFromStyle styleBlocks).map Selector.name).Nodup ∧
    (extractClassesFromStyle styleBlocks).map Selector.name
      = firstDedup (selectorTokens styleBlocks) := by
  intro blocks
  constructor
  · rw [extractClasses_names]
    exact foldl_addToSet_nodup _ [] List.nodup_nil
  · rw [extractClasses_names, foldl_addToSet_eq]
    have : (selectorTokens blocks).filter (fun t => !([] : List String).contains t)
        = selectorTokens blocks := by
      have hp : (fun t : String => !([] : List String).contains t) = fun _ => true := by
        funext t
        rfl
      rw [hp]
      exact List.filter_true _
    rw [this, List.nil_append]

end Analyzer
